import Mathlib

/-!
Verification development for the `hooker` webhook deployment daemon
(`main.go`).  The Go source is shallowly embedded: pure logic
(payload decoding, ref selection) becomes Lean functions, the HTTP handler
becomes a function from an abstract request/filesystem/git environment to a
result record (HTTP outcome, final repository ref state, event trace), and
the external library calls (os.Stat, git2go operations, sync.Mutex) are
modelled as oracles in the environment plus events in the trace.
-/

/-- JSON values, the input domain of `encoding/json.Unmarshal`.  Numbers are
modelled as integers: no decoder field in this program has numeric type, so a
number can never be stored, only rejected. -/
inductive Json where
  | null : Json
  | bool (b : Bool) : Json
  | num (n : Int) : Json
  | str (s : String) : Json
  | arr (elems : List Json) : Json
  | obj (fields : List (String × Json)) : Json

/-- One entry of `BitbucketServerWebhook.RefChanges`
(anonymous struct `{ RefID string }` with json tag `refId`, main.go:238-240). -/
structure RefChange where
  RefID : String
deriving DecidableEq

/-- `BitbucketServerWebhook` (main.go:237-241): the Bitbucket-Server payload
stripped down to the `refChanges` list. -/
structure BitbucketServerWebhook where
  RefChanges : List RefChange
deriving DecidableEq

/-- `GitLabWebhook` (main.go:244-246).  Its single field `ref` is UNEXPORTED
in the Go source (lower-case name), so `encoding/json` never writes to it; a
decoded value always carries the zero value `""`. -/
structure GitLabWebhook where
  ref : String
deriving DecidableEq

/-- The loop body of `BitbucketServerWebhook.Ref` (main.go:249-256): scan
`RefChanges`, return `"refs/heads/master"` on the first record whose `RefID`
is exactly that string, else fall through to `"not master"`. -/
def refScan : List RefChange → String
  | [] => "not master"
  | r :: rest =>
    if r.RefID = "refs/heads/master" then "refs/heads/master" else refScan rest

/-- `func (b BitbucketServerWebhook) Ref() string` (main.go:249-256). -/
def BitbucketServerWebhook.Ref (b : BitbucketServerWebhook) : String :=
  refScan b.RefChanges

/-- `func (w GitLabWebhook) Ref() string` (main.go:259-261). -/
def GitLabWebhook.Ref (w : GitLabWebhook) : String :=
  w.ref

/-- The dynamic value returned through the `Ref` interface (main.go:232-234):
either of the two concrete webhook structs. -/
inductive RefVal where
  | bitbucket (b : BitbucketServerWebhook)
  | gitlab (g : GitLabWebhook)
deriving DecidableEq

/-- Interface dispatch of `.Ref()` on the dynamic value. -/
def RefVal.Ref : RefVal → String
  | .bitbucket b => b.Ref
  | .gitlab g => g.Ref

/-- ASCII case-fold of one character code (upper-case letters map to their
lower-case code). -/
def foldCode (c : Char) : Nat :=
  if 65 ≤ c.toNat && c.toNat ≤ 90 then c.toNat + 32 else c.toNat

/-- Go JSON field-name matching: exact or case-insensitive
(`encoding/json` falls back to a case-folded match).  ASCII folding
suffices for the field names occurring in this program. -/
def keyMatches (key name : String) : Bool :=
  key.data.map foldCode == name.data.map foldCode

/-- Decode the fields of one `refChanges` element into its `RefID` string,
Go semantics: every key matching `refId` must hold a string (stored,
last occurrence wins) or `null` (ignored, keeps the current value);
a matching key of any other shape is a decode error; non-matching keys are
ignored. -/
def decodeRefIDFields : List (String × Json) → String → Option String
  | [], cur => some cur
  | (k, v) :: rest, cur =>
    if keyMatches k "refId" then
      match v with
      | .str s => decodeRefIDFields rest s
      | .null => decodeRefIDFields rest cur
      | _ => none
    else
      decodeRefIDFields rest cur

/-- Decode one element of the `refChanges` array.  Go semantics: an object
is decoded field-wise, `null` leaves the element at its zero value, any
other shape is a decode error. -/
def decodeRefChange : Json → Option RefChange
  | .obj fs => (decodeRefIDFields fs "").map RefChange.mk
  | .null => some ⟨""⟩
  | _ => none

/-- Decode all elements of the `refChanges` array; any failing element fails
the whole decode (encoding/json records the error even though it keeps
scanning). -/
def decodeRefChangeItems : List Json → Option (List RefChange)
  | [] => some []
  | j :: rest =>
    match decodeRefChange j, decodeRefChangeItems rest with
    | some rc, some rcs => some (rc :: rcs)
    | _, _ => none

/-- Decode a JSON value into the `[]struct{RefID string}` slice.  Go
semantics: array → element-wise, `null` → nil slice, anything else is a
decode error. -/
def decodeRefChangeList : Json → Option (List RefChange)
  | .arr elems => decodeRefChangeItems elems
  | .null => some []
  | _ => none

/-- Decode the fields of a JSON object into `BitbucketServerWebhook`: every
key matching `refChanges` must decode as a ref-change list (last occurrence
wins), all other keys are ignored. -/
def decodeBitbucketFields : List (String × Json) → List RefChange → Option (List RefChange)
  | [], cur => some cur
  | (k, v) :: rest, cur =>
    if keyMatches k "refChanges" then
      match decodeRefChangeList v with
      | some l => decodeBitbucketFields rest l
      | none => none
    else
      decodeBitbucketFields rest cur

/-- `json.Unmarshal(data, &BitbucketServerWebhook{})` on a JSON value:
an object is decoded field-wise, `null` is a successful no-op leaving the
zero value, any other shape is a decode error. -/
def decodeBitbucket : Json → Option BitbucketServerWebhook
  | .obj fs => (decodeBitbucketFields fs []).map BitbucketServerWebhook.mk
  | .null => some ⟨[]⟩
  | _ => none

/-- `json.Unmarshal(data, &GitLabWebhook{})`: the struct has no exported
field, so every JSON object decodes successfully with all fields ignored and
the unexported `ref` left at its zero value `""`; `null` likewise; any
other shape is a decode error. -/
def decodeGitLab : Json → Option GitLabWebhook
  | .obj _ => some ⟨""⟩
  | .null => some ⟨""⟩
  | _ => none

/-- The request body handed to `unmarshalPayload` (main.go:263-276): either
the `ioutil.ReadAll` of `r.Body` fails, or it yields bytes that are not
valid JSON, or it yields bytes parsing to a JSON value. -/
inductive Body where
  | readFail : Body
  | invalid : Body
  | json (j : Json) : Body

/-- Observable result of `unmarshalPayload` (main.go:263-276) together with
how the caller sees it.
* `ok r`      — some decoder parsed: returns `(r, nil)`.
* `errRead`   — `ioutil.ReadAll` failed: returns `(nil, err)` with `err ≠ nil`.
* `nilnil`    — NO decoder parsed.  The Go source shadows `err` inside the
  loop (`if err := json.Unmarshal(...)`, main.go:271), so the final
  `return nil, err` (main.go:275) returns the OUTER `err`, which is `nil`
  here: the function yields `(nil, nil)`.
* `assertPanic` — the body is the JSON literal `null`: `json.Unmarshal` into
  `&s` (pointer to interface holding `*BitbucketServerWebhook`) succeeds by
  setting the interface itself to nil, and the type assertion `s.(Ref)`
  (main.go:272) panics on the nil interface. -/
inductive UnmarshalOut where
  | ok (r : RefVal)
  | errRead
  | nilnil
  | assertPanic
deriving DecidableEq

/-- `func unmarshalPayload(r io.Reader) (Ref, error)` (main.go:263-276).
The decoder list is `[&BitbucketServerWebhook{}, &GitLabWebhook{}]`
(main.go:269), tried in order; the first one whose `json.Unmarshal` returns
a nil error wins. -/
def unmarshalPayload : Body → UnmarshalOut
  | .readFail => .errRead
  | .invalid => .nilnil
  | .json .null => .assertPanic
  | .json j =>
    match decodeBitbucket j with
    | some b => .ok (.bitbucket b)
    | none =>
      match decodeGitLab j with
      | some g => .ok (.gitlab g)
      | none => .nilnil

/-- Results of the two `os.Stat` calls in `handleWebhook` (main.go:300,315):
`none` means the stat returned an error (path missing), `some d` means it
succeeded and `d` is `FileInfo.IsDir()`.  The first is for the joined path
`HookPath + r.URL.Path`, the second for its `.git` entry. -/
structure FS where
  statTargetDir : Option Bool
  statGitDir : Option Bool
deriving DecidableEq

/-- Oracles for the git2go library calls made by `handleWebhook`
(main.go:328-396), one success flag per fallible call in source order, plus
the commit id that `refs/remotes/origin/master` resolves to right after the
fetch (the target read at main.go:350).  Commit ids are abstracted to `Nat`.
`setLocalOk`/`setHeadOk` are the outcomes of the two `SetTarget` calls
(main.go:393-394) whose return values the source DISCARDS. -/
structure SyncEnv where
  openOk : Bool
  remoteLookupOk : Bool
  fetchOk : Bool
  trackingOk : Bool
  annotatedOk : Bool
  mergeOk : Bool
  commitLookupOk : Bool
  treeOk : Bool
  checkoutOk : Bool
  headOk : Bool
  localLookupOk : Bool
  setLocalOk : Bool
  setHeadOk : Bool
  remoteTarget : Nat
deriving DecidableEq

/-- Mutable repository state observed across a request: the commit the local
`refs/heads/master` points at, the commit HEAD resolves to, and the commit
whose tree the working directory matches. -/
structure GitState where
  localMaster : Nat
  headTarget : Nat
  workTree : Nat
deriving DecidableEq

/-- Events emitted by the handler, in program order: the mutex operations
(main.go:297-298), the two stat calls, each attempted git2go call, and each
HTTP response write. -/
inductive Ev where
  | lock | unlock
  | statTarget | statGit
  | gitOpen | gitRemoteLookup | gitFetch | gitTrackingLookup | gitAnnotated
  | gitMerge | gitCommitLookup | gitTree | gitCheckout | gitHead
  | gitLocalLookup | gitSetLocal | gitSetHead | gitCleanup
  | respond (status : Nat) (text : String)
deriving DecidableEq

/-- How a request terminates: an HTTP response with a status code and body
text, or a runtime panic escaping the handler (no response written). -/
inductive Outcome where
  | responded (status : Nat) (text : String)
  | panicked
deriving DecidableEq

/-- What one request produces: the termination outcome, the repository state
afterwards, and the ordered event trace. -/
structure HandlerResult where
  outcome : Outcome
  state : GitState
  trace : List Ev
deriving DecidableEq

/-- One fallible git2go call of the synchronization sequence: its success
oracle, the trace event recording the attempt, and the repository state
after a successful call. -/
structure GitCall where
  ok : Bool
  ev : Ev
  after : GitState → GitState

/-- The eleven fallible, error-CHECKED git2go calls of `handleWebhook`
(main.go:328-391), in source order: `OpenRepositoryExtended`,
`LookupRemote("origin")`, `Fetch`, `LookupReference
("refs/remotes/origin/master")`, `AnnotatedCommitFromRef`, `Merge`,
`LookupCommit(remoteTarget)`, `Commit.Tree`, `CheckoutTree(CheckoutForce)`
(which on success forces the working tree to the remote commit), `Head`,
and `LookupReference("refs/heads/master")`.  The two `SetTarget` calls and
`StateCleanup` are NOT in this list because the source discards their
results (main.go:393-396). -/
def gitCalls (env : SyncEnv) : List GitCall :=
  [⟨env.openOk, .gitOpen, id⟩,
   ⟨env.remoteLookupOk, .gitRemoteLookup, id⟩,
   ⟨env.fetchOk, .gitFetch, id⟩,
   ⟨env.trackingOk, .gitTrackingLookup, id⟩,
   ⟨env.annotatedOk, .gitAnnotated, id⟩,
   ⟨env.mergeOk, .gitMerge, id⟩,
   ⟨env.commitLookupOk, .gitCommitLookup, id⟩,
   ⟨env.treeOk, .gitTree, id⟩,
   ⟨env.checkoutOk, .gitCheckout, fun s => { s with workTree := env.remoteTarget }⟩,
   ⟨env.headOk, .gitHead, id⟩,
   ⟨env.localLookupOk, .gitLocalLookup, id⟩]

/-- Run a call sequence until its first failure, mirroring the Go
`if err != nil { http500(...); return }` pattern after each call: every
attempted call leaves its event; a failing call stops the run with the state
reached so far; the Bool says whether all calls succeeded. -/
def runCalls : List GitCall → GitState → Bool × GitState × List Ev
  | [], st => (true, st, [])
  | c :: rest, st =>
    if c.ok then
      let r := runCalls rest (c.after st)
      (r.1, r.2.1, c.ev :: r.2.2)
    else
      (false, st, [c.ev])

/-- The part of `handleWebhook` executed while the mutex is held
(main.go:300-400): the two stat guards (404 then 403, main.go:300-326),
then the git call sequence; a failing git call responds 500 (`http500`);
if all eleven checked calls succeed, the source runs
`localBranch.SetTarget`, `head.SetTarget` (their errors DISCARDED, so the
refs move only when `setLocalOk`/`setHeadOk` hold but the flow continues
regardless), `StateCleanup` (error discarded), and responds 200 `ok`
(main.go:393-400).  The returned events are those between `Lock` and the
deferred `Unlock`, the response write included, since it happens before the
handler returns and the deferred unlock runs. -/
def syncBody (fs : FS) (env : SyncEnv) (st : GitState) :
    Outcome × GitState × List Ev :=
  match fs.statTargetDir with
  | none => (.responded 404 "404", st, [.statTarget, .respond 404 "404"])
  | some false => (.responded 404 "404", st, [.statTarget, .respond 404 "404"])
  | some true =>
    match fs.statGitDir with
    | none => (.responded 403 "403", st, [.statTarget, .statGit, .respond 403 "403"])
    | some false => (.responded 403 "403", st, [.statTarget, .statGit, .respond 403 "403"])
    | some true =>
      let r := runCalls (gitCalls env) st
      if r.1 then
        (.responded 200 "ok",
          { localMaster := if env.setLocalOk then env.remoteTarget else r.2.1.localMaster
            headTarget := if env.setHeadOk then env.remoteTarget else r.2.1.headTarget
            workTree := r.2.1.workTree },
          .statTarget :: .statGit ::
            (r.2.2 ++ [.gitSetLocal, .gitSetHead, .gitCleanup, .respond 200 "ok"]))
      else
        (.responded 500 "500", r.2.1,
          .statTarget :: .statGit :: (r.2.2 ++ [.respond 500 "500"]))

/-- `func handleWebhook(w, r, _)` (main.go:278-401).
* `unmarshalPayload` error (only the read-failure path can produce one, see
  `UnmarshalOut`) → `http.Error(w, "500", 500)` and return (main.go:286-289).
* `nilnil`: `err` is nil so the guard is passed and `ref.Ref()` is a method
  call on a nil interface → panic, nothing written (main.go:291).
* `assertPanic`: the panic already happened inside `unmarshalPayload`.
* Reported ref ≠ `"refs/heads/master"` → 500 (main.go:291-294), before the
  mutex and before any filesystem or git access.
* Otherwise `mutex.Lock()` with `defer mutex.Unlock()` (main.go:297-298)
  brackets the whole sync; the deferred unlock runs at function exit, AFTER
  the response inside `syncBody` has been written. -/
def handleWebhook (b : Body) (fs : FS) (env : SyncEnv) (st : GitState) :
    HandlerResult :=
  match unmarshalPayload b with
  | .errRead => ⟨.responded 500 "500", st, [.respond 500 "500"]⟩
  | .assertPanic => ⟨.panicked, st, []⟩
  | .nilnil => ⟨.panicked, st, []⟩
  | .ok r =>
    if RefVal.Ref r = "refs/heads/master" then
      let s := syncBody fs env st
      ⟨s.1, s.2.1, .lock :: (s.2.2 ++ [.unlock])⟩
    else
      ⟨.responded 500 "500", st, [.respond 500 "500"]⟩

/-- An environment in which every library call succeeds. -/
def envAllOk : SyncEnv :=
  ⟨true, true, true, true, true, true, true, true, true, true, true, true, true, 1⟩

/-- A Bitbucket-Server payload announcing a push to master. -/
def masterBody : Body :=
  .json (.obj [("refChanges", .arr [.obj [("refId", .str "refs/heads/master")]])])

/-- Events that touch the filesystem or the repository: everything except
the mutex operations and the HTTP response writes. -/
def critEv : Ev → Bool
  | .lock => false
  | .unlock => false
  | .respond _ _ => false
  | _ => true

/-- Scanner over a handler trace (second argument: currently inside the
critical section).  It returns `true` iff the trace acquires the lock at
most once and only while not holding it, touches the filesystem/repository
only while holding it, and, once the lock is held, releases it exactly once,
as the very last action of the trace (the deferred unlock, which therefore
runs after the response write inside the section). -/
def lockDiscipline : List Ev → Bool → Bool
  | [], inside => !inside
  | .lock :: rest, inside => !inside && lockDiscipline rest true
  | .unlock :: rest, inside => inside && rest.isEmpty
  | e :: rest, inside => (!critEv e || inside) && lockDiscipline rest inside

def isRespondEv : Ev → Bool
  | .respond _ _ => true
  | _ => false

/-- The ordering asserted by the spec for lock-taking paths: the mutex is
released BEFORE the HTTP response is written, i.e. the first `unlock` in the
trace occurs strictly before the first response event. -/
def releasedBeforeResponse (t : List Ev) : Bool :=
  if t.contains .lock then
    decide (t.findIdx (fun e => e == Ev.unlock) < t.findIdx isRespondEv)
  else true

/-- One request handler as a concurrent thread: the events it still has to
execute and whether it is currently inside the mutex-guarded section. -/
structure SyncThread where
  rest : List Ev
  inCrit : Bool
deriving DecidableEq

/-- Two handler threads racing on the single process-wide `mutex`
(main.go:229): `locked` is the mutex state. -/
structure LockSys where
  th1 : SyncThread
  th2 : SyncThread
  locked : Bool
deriving DecidableEq

/-- One scheduling step of a thread under `sync.Mutex` semantics: `Lock`
blocks (no step) while the mutex is held and otherwise acquires it; `Unlock`
releases it (only meaningful for the holder); every other event runs freely. -/
def threadStep (t : SyncThread) (locked : Bool) : Option (SyncThread × Bool) :=
  match t.rest with
  | [] => none
  | .lock :: rest => if locked then none else some (⟨rest, true⟩, true)
  | .unlock :: rest => if t.inCrit then some (⟨rest, false⟩, false) else none
  | _ :: rest => some (⟨rest, t.inCrit⟩, locked)

/-- Interleaved executions of the two threads: either thread may take its
next enabled step at any instant. -/
inductive Reaches : LockSys → LockSys → Prop where
  | refl (s : LockSys) : Reaches s s
  | go1 (s s' : LockSys) (t : SyncThread) (l : Bool) :
      Reaches s s' → threadStep s'.th1 s'.locked = some (t, l) →
      Reaches s ⟨t, s'.th2, l⟩
  | go2 (s s' : LockSys) (t : SyncThread) (l : Bool) :
      Reaches s s' → threadStep s'.th2 s'.locked = some (t, l) →
      Reaches s ⟨s'.th1, t, l⟩

/-- Mutex invariant: when the mutex is free nobody is inside the critical
section, and the two threads are never inside simultaneously. -/
def mutexInv (s : LockSys) : Prop :=
  (s.locked = false → s.th1.inCrit = false ∧ s.th2.inCrit = false) ∧
  ¬(s.th1.inCrit = true ∧ s.th2.inCrit = true)

/-- Environment whose two `SetTarget` calls fail (errors the source
discards) while everything else succeeds. -/
def envNoSetRefs : SyncEnv :=
  { envAllOk with setLocalOk := false, setHeadOk := false, remoteTarget := 5 }

/-- Environment whose `SetTarget` on `refs/heads/master` fails while
everything else, the `SetTarget` on HEAD included, succeeds. -/
def envNoSetLocal : SyncEnv :=
  { envAllOk with setLocalOk := false, remoteTarget := 7 }

theorem refScan_eq_master_iff (l : List RefChange) :
    refScan l = "refs/heads/master" ↔ ∃ rc ∈ l, rc.RefID = "refs/heads/master" := by
  induction l with
  | nil => simp [refScan]
  | cons r rest ih =>
    by_cases h : r.RefID = "refs/heads/master"
    · simp [refScan, h]
    · simp [refScan, h, ih]

theorem refScan_master_or_not (l : List RefChange) :
    refScan l = "refs/heads/master" ∨ refScan l = "not master" := by
  induction l with
  | nil => right; rfl
  | cons r rest ih =>
    by_cases h : r.RefID = "refs/heads/master"
    · left; simp [refScan, h]
    · simpa [refScan, h] using ih

theorem unmarshalPayload_obj_bitbucket (fields : List (String × Json))
    (b : BitbucketServerWebhook) (h : decodeBitbucket (.obj fields) = some b) :
    unmarshalPayload (.json (.obj fields)) = .ok (.bitbucket b) := by
  simp [unmarshalPayload, h]

theorem unmarshalPayload_obj_gitlab (fields : List (String × Json))
    (h : decodeBitbucket (.obj fields) = none) :
    unmarshalPayload (.json (.obj fields)) = .ok (.gitlab ⟨""⟩) := by
  simp [unmarshalPayload, h, decodeGitLab]

theorem handleWebhook_ok_master (b : Body) (fs : FS) (env : SyncEnv)
    (st : GitState) (r : RefVal) (hu : unmarshalPayload b = .ok r)
    (hm : RefVal.Ref r = "refs/heads/master") :
    handleWebhook b fs env st =
      ⟨(syncBody fs env st).1, (syncBody fs env st).2.1,
        .lock :: ((syncBody fs env st).2.2 ++ [.unlock])⟩ := by
  simp [handleWebhook, hu, hm]

theorem handleWebhook_ok_other (b : Body) (fs : FS) (env : SyncEnv)
    (st : GitState) (r : RefVal) (hu : unmarshalPayload b = .ok r)
    (hm : RefVal.Ref r ≠ "refs/heads/master") :
    handleWebhook b fs env st = ⟨.responded 500 "500", st, [.respond 500 "500"]⟩ := by
  simp [handleWebhook, hu, hm]

theorem runCalls_fst (calls : List GitCall) (st : GitState) :
    (runCalls calls st).1 = calls.all (fun c => c.ok) := by
  induction calls generalizing st with
  | nil => rfl
  | cons c rest ih =>
    by_cases hc : c.ok <;> simp [runCalls, hc, ih]

theorem runCalls_all_ok (calls : List GitCall) (st : GitState)
    (h : calls.all (fun c => c.ok) = true) :
    runCalls calls st =
      (true, calls.foldl (fun s c => c.after s) st, calls.map (fun c => c.ev)) := by
  induction calls generalizing st with
  | nil => rfl
  | cons c rest ih =>
    simp only [List.all_cons, Bool.and_eq_true] at h
    simp [runCalls, h.1, ih (c.after st) h.2]

theorem gitCalls_all_iff (env : SyncEnv) :
    (gitCalls env).all (fun c => c.ok) = true ↔
      env.openOk = true ∧ env.remoteLookupOk = true ∧ env.fetchOk = true ∧
      env.trackingOk = true ∧ env.annotatedOk = true ∧ env.mergeOk = true ∧
      env.commitLookupOk = true ∧ env.treeOk = true ∧ env.checkoutOk = true ∧
      env.headOk = true ∧ env.localLookupOk = true := by
  simp [gitCalls, and_assoc]

theorem syncBody_200 (fs : FS) (env : SyncEnv) (st : GitState)
    (h : (syncBody fs env st).1 = .responded 200 "ok") :
    fs.statTargetDir = some true ∧ fs.statGitDir = some true ∧
    env.openOk = true ∧ env.remoteLookupOk = true ∧ env.fetchOk = true ∧
    env.trackingOk = true ∧ env.annotatedOk = true ∧ env.mergeOk = true ∧
    env.commitLookupOk = true ∧ env.treeOk = true ∧ env.checkoutOk = true ∧
    env.headOk = true ∧ env.localLookupOk = true := by
  unfold syncBody at h
  split at h
  next => simp at h
  next => simp at h
  next hts =>
    split at h
    next => simp at h
    next => simp at h
    next hgs =>
      cases hr : (runCalls (gitCalls env) st).1 with
      | false => simp [hr] at h
      | true =>
        rw [runCalls_fst] at hr
        exact ⟨hts, hgs, (gitCalls_all_iff env).1 hr⟩

theorem syncBody_ok_eq (fs : FS) (env : SyncEnv) (st : GitState)
    (h1 : fs.statTargetDir = some true) (h2 : fs.statGitDir = some true)
    (h3 : env.openOk = true) (h4 : env.remoteLookupOk = true)
    (h5 : env.fetchOk = true) (h6 : env.trackingOk = true)
    (h7 : env.annotatedOk = true) (h8 : env.mergeOk = true)
    (h9 : env.commitLookupOk = true) (h10 : env.treeOk = true)
    (h11 : env.checkoutOk = true) (h12 : env.headOk = true)
    (h13 : env.localLookupOk = true) :
    syncBody fs env st =
      (.responded 200 "ok",
        ⟨if env.setLocalOk then env.remoteTarget else st.localMaster,
         if env.setHeadOk then env.remoteTarget else st.headTarget,
         env.remoteTarget⟩,
        [.statTarget, .statGit, .gitOpen, .gitRemoteLookup, .gitFetch,
         .gitTrackingLookup, .gitAnnotated, .gitMerge, .gitCommitLookup,
         .gitTree, .gitCheckout, .gitHead, .gitLocalLookup, .gitSetLocal,
         .gitSetHead, .gitCleanup, .respond 200 "ok"]) := by
  have hall : (gitCalls env).all (fun c => c.ok) = true :=
    (gitCalls_all_iff env).2
      ⟨h3, h4, h5, h6, h7, h8, h9, h10, h11, h12, h13⟩
  unfold syncBody
  rw [h1, h2]
  simp only [runCalls_all_ok (gitCalls env) st hall]
  simp [gitCalls]

theorem runCalls_ev_not_lock (calls : List GitCall) (st : GitState)
    (hc : ∀ c ∈ calls, c.ev ≠ Ev.lock ∧ c.ev ≠ Ev.unlock) :
    ∀ e ∈ (runCalls calls st).2.2, e ≠ Ev.lock ∧ e ≠ Ev.unlock := by
  induction calls generalizing st with
  | nil => simp [runCalls]
  | cons c rest ih =>
    intro e he
    by_cases hok : c.ok
    · simp [runCalls, hok] at he
      rcases he with rfl | he
      · exact hc c (by simp)
      · exact ih (c.after st) (fun c' h' => hc c' (by simp [h'])) e he
    · simp [runCalls, hok] at he
      subst he
      exact hc c (by simp)

theorem gitCalls_ev_not_lock (env : SyncEnv) :
    ∀ c ∈ gitCalls env, c.ev ≠ Ev.lock ∧ c.ev ≠ Ev.unlock := by
  intro c hc
  simp [gitCalls] at hc
  rcases hc with rfl | rfl | rfl | rfl | rfl | rfl | rfl | rfl | rfl | rfl | rfl <;>
    exact ⟨by simp, by simp⟩

theorem syncBody_no_lock (fs : FS) (env : SyncEnv) (st : GitState) :
    ∀ e ∈ (syncBody fs env st).2.2, e ≠ Ev.lock ∧ e ≠ Ev.unlock := by
  have hr := runCalls_ev_not_lock (gitCalls env) st (gitCalls_ev_not_lock env)
  unfold syncBody
  split
  · simp
  · simp
  · split
    · simp
    · simp
    · intro e he
      by_cases hb : (runCalls (gitCalls env) st).1 = true
      · simp only [hb, if_true] at he
        simp at he
        rcases he with rfl | rfl | he | rfl | rfl | rfl | rfl
        · exact ⟨by simp, by simp⟩
        · exact ⟨by simp, by simp⟩
        · exact hr e he
        · exact ⟨by simp, by simp⟩
        · exact ⟨by simp, by simp⟩
        · exact ⟨by simp, by simp⟩
        · exact ⟨by simp, by simp⟩
      · simp only [hb, if_false] at he
        simp at he
        rcases he with rfl | rfl | he | rfl
        · exact ⟨by simp, by simp⟩
        · exact ⟨by simp, by simp⟩
        · exact hr e he
        · exact ⟨by simp, by simp⟩

theorem lockDiscipline_inside (evs : List Ev)
    (h : ∀ e ∈ evs, e ≠ Ev.lock ∧ e ≠ Ev.unlock) :
    lockDiscipline (evs ++ [Ev.unlock]) true = true := by
  induction evs with
  | nil => rfl
  | cons e rest ih =>
    have he := h e (by simp)
    have hrest := ih (fun e' h' => h e' (by simp [h']))
    cases e <;> simp_all [lockDiscipline]

theorem lockDiscipline_sandwich (evs : List Ev)
    (h : ∀ e ∈ evs, e ≠ Ev.lock ∧ e ≠ Ev.unlock) :
    lockDiscipline (Ev.lock :: (evs ++ [Ev.unlock])) false = true := by
  simpa [lockDiscipline] using lockDiscipline_inside evs h

theorem lockDiscipline_handler (b : Body) (fs : FS) (env : SyncEnv) (st : GitState) :
    lockDiscipline (handleWebhook b fs env st).trace false = true := by
  cases hu : unmarshalPayload b with
  | errRead => simp [handleWebhook, hu, lockDiscipline, critEv]
  | assertPanic => simp [handleWebhook, hu, lockDiscipline]
  | nilnil => simp [handleWebhook, hu, lockDiscipline]
  | ok r =>
    by_cases hm : RefVal.Ref r = "refs/heads/master"
    · rw [handleWebhook_ok_master b fs env st r hu hm]
      exact lockDiscipline_sandwich _ (syncBody_no_lock fs env st)
    · rw [handleWebhook_ok_other b fs env st r hu hm]
      simp [lockDiscipline, critEv]

theorem threadStep_inv_left (s : LockSys) (t : SyncThread) (l : Bool)
    (hstep : threadStep s.th1 s.locked = some (t, l)) (hi : mutexInv s) :
    mutexInv ⟨t, s.th2, l⟩ := by
  obtain ⟨hfree, hboth⟩ := hi
  unfold threadStep at hstep
  split at hstep
  · exact absurd hstep (by simp)
  · split at hstep
    · exact absurd hstep (by simp)
    · next hnl =>
      simp only [Option.some.injEq, Prod.mk.injEq] at hstep
      obtain ⟨ht, hl⟩ := hstep
      subst ht
      subst hl
      have hl0 : s.locked = false := by simpa using hnl
      refine ⟨fun h => by simp at h, fun hc => ?_⟩
      exact absurd hc.2 (by simp [(hfree hl0).2])
  · split at hstep
    · next hc =>
      simp only [Option.some.injEq, Prod.mk.injEq] at hstep
      obtain ⟨ht, hl⟩ := hstep
      subst ht
      subst hl
      have h2 : s.th2.inCrit = false := by
        by_contra hx
        exact hboth ⟨hc, by simpa using hx⟩
      exact ⟨fun _ => ⟨rfl, h2⟩, fun hcc => by simp at hcc⟩
    · exact absurd hstep (by simp)
  · simp only [Option.some.injEq, Prod.mk.injEq] at hstep
    obtain ⟨ht, hl⟩ := hstep
    subst ht
    subst hl
    exact ⟨fun h => ⟨(hfree h).1, (hfree h).2⟩, fun hc => hboth ⟨hc.1, hc.2⟩⟩

theorem threadStep_inv_right (s : LockSys) (t : SyncThread) (l : Bool)
    (hstep : threadStep s.th2 s.locked = some (t, l)) (hi : mutexInv s) :
    mutexInv ⟨s.th1, t, l⟩ := by
  obtain ⟨hfree, hboth⟩ := hi
  unfold threadStep at hstep
  split at hstep
  · exact absurd hstep (by simp)
  · split at hstep
    · exact absurd hstep (by simp)
    · next hnl =>
      simp only [Option.some.injEq, Prod.mk.injEq] at hstep
      obtain ⟨ht, hl⟩ := hstep
      subst ht
      subst hl
      have hl0 : s.locked = false := by simpa using hnl
      refine ⟨fun h => by simp at h, fun hc => ?_⟩
      exact absurd hc.1 (by simp [(hfree hl0).1])
  · split at hstep
    · next hc =>
      simp only [Option.some.injEq, Prod.mk.injEq] at hstep
      obtain ⟨ht, hl⟩ := hstep
      subst ht
      subst hl
      have h1 : s.th1.inCrit = false := by
        by_contra hx
        exact hboth ⟨by simpa using hx, hc⟩
      exact ⟨fun _ => ⟨h1, rfl⟩, fun hcc => by simp at hcc⟩
    · exact absurd hstep (by simp)
  · simp only [Option.some.injEq, Prod.mk.injEq] at hstep
    obtain ⟨ht, hl⟩ := hstep
    subst ht
    subst hl
    exact ⟨fun h => ⟨(hfree h).1, (hfree h).2⟩, fun hc => hboth ⟨hc.1, hc.2⟩⟩

theorem reaches_mutexInv (s s' : LockSys) (h : Reaches s s') (hi : mutexInv s) :
    mutexInv s' := by
  induction h with
  | refl => exact hi
  | go1 s' t l hr hstep ih => exact threadStep_inv_left s' t l hstep ih
  | go2 s' t l hr hstep ih => exact threadStep_inv_right s' t l hstep ih

/-- C1, counterexample: the claim "every synchronization run that reports
success leaves refs/heads/master at the commit refs/remotes/origin/master
pointed to after the fetch" is false as stated: in a run where the
`localBranch.SetTarget` call fails (its error is discarded at main.go:393),
the handler still reports 200 `ok` while the local master ref keeps its old
commit 0 instead of the remote commit 7. -/
theorem C1_counterexample :
    (handleWebhook masterBody ⟨some true, some true⟩ envNoSetLocal ⟨0, 0, 0⟩).outcome
        = .responded 200 "ok" ∧
    ¬((handleWebhook masterBody ⟨some true, some true⟩ envNoSetLocal ⟨0, 0, 0⟩).state.localMaster
        = envNoSetLocal.remoteTarget) := by
  decide

/-- C1 (amended): for every synchronization run that reports success AND
whose two (error-discarded) `SetTarget` calls succeed, local
refs/heads/master and HEAD afterwards resolve to exactly the commit that
refs/remotes/origin/master pointed to after the fetch, and running the
handler a second time in the same environment (no new remote commits)
succeeds again and ends at the same final state — idempotence. -/
theorem C1_success_refs (b : Body) (fs : FS) (env : SyncEnv) (st : GitState)
    (hs : (handleWebhook b fs env st).outcome = .responded 200 "ok")
    (hl : env.setLocalOk = true) (hh : env.setHeadOk = true) :
    (handleWebhook b fs env st).state.localMaster = env.remoteTarget ∧
    (handleWebhook b fs env st).state.headTarget = env.remoteTarget ∧
    (handleWebhook b fs env ((handleWebhook b fs env st).state)).outcome
        = .responded 200 "ok" ∧
    (handleWebhook b fs env ((handleWebhook b fs env st).state)).state
        = (handleWebhook b fs env st).state := by
  cases hu : unmarshalPayload b with
  | errRead => simp [handleWebhook, hu] at hs
  | assertPanic => simp [handleWebhook, hu] at hs
  | nilnil => simp [handleWebhook, hu] at hs
  | ok r =>
    by_cases hm : RefVal.Ref r = "refs/heads/master"
    · have hrw := handleWebhook_ok_master b fs env st r hu hm
      rw [hrw] at hs
      obtain ⟨h1, h2, h3, h4, h5, h6, h7, h8, h9, h10, h11, h12, h13⟩ :=
        syncBody_200 fs env st hs
      have hb1 := syncBody_ok_eq fs env st h1 h2 h3 h4 h5 h6 h7 h8 h9 h10 h11 h12 h13
      rw [hrw, hb1]
      simp only [hl, hh, if_true]
      have hrw2 := handleWebhook_ok_master b fs env
        ⟨env.remoteTarget, env.remoteTarget, env.remoteTarget⟩ r hu hm
      rw [hrw2,
        syncBody_ok_eq fs env ⟨env.remoteTarget, env.remoteTarget, env.remoteTarget⟩
          h1 h2 h3 h4 h5 h6 h7 h8 h9 h10 h11 h12 h13]
      simp [hl, hh]
    · simp [handleWebhook, hu, hm] at hs

/-- C1, witness: the amended theorem applied at a concrete all-success
run. -/
theorem C1_witness :
    (handleWebhook masterBody ⟨some true, some true⟩ envAllOk ⟨0, 0, 0⟩).state.localMaster
        = envAllOk.remoteTarget ∧
    (handleWebhook masterBody ⟨some true, some true⟩ envAllOk ⟨0, 0, 0⟩).state.headTarget
        = envAllOk.remoteTarget ∧
    (handleWebhook masterBody ⟨some true, some true⟩ envAllOk
        ((handleWebhook masterBody ⟨some true, some true⟩ envAllOk ⟨0, 0, 0⟩).state)).outcome
        = .responded 200 "ok" ∧
    (handleWebhook masterBody ⟨some true, some true⟩ envAllOk
        ((handleWebhook masterBody ⟨some true, some true⟩ envAllOk ⟨0, 0, 0⟩).state)).state
        = (handleWebhook masterBody ⟨some true, some true⟩ envAllOk ⟨0, 0, 0⟩).state :=
  C1_success_refs masterBody ⟨some true, some true⟩ envAllOk ⟨0, 0, 0⟩
    (by decide) (by decide) (by decide)

/-- C2: the claim says `unmarshalPayload` returns a non-nil error when no
decoder parses and the handler turns it into HTTP 500.  The code does not:
the decode error is assigned to a SHADOWED `err` (main.go:271), so after the
loop `return nil, err` (main.go:275) returns `(nil, nil)`; the handler then
passes the `err != nil` guard and calls `ref.Ref()` on a nil interface,
which panics — no 500 (and no response at all) is written.  Evaluated here
on a body that is not valid JSON and on a valid-JSON body (an array)
matching neither schema. -/
theorem C2_shadowed_err :
    unmarshalPayload .invalid = .nilnil ∧
    unmarshalPayload (.json (.str "hello")) = .nilnil ∧
    (handleWebhook .invalid ⟨some true, some true⟩ envAllOk ⟨0, 0, 0⟩).outcome
        = .panicked ∧
    (handleWebhook .invalid ⟨some true, some true⟩ envAllOk ⟨0, 0, 0⟩).trace = [] := by
  decide

/-- C3: the claim says a GitLab-style payload with a top-level `ref` string
field is reported with that literal ref value, so `{"ref":
"refs/heads/master"}` passes the master filter.  The code does not: that
body is a JSON object, so the FIRST decoder (`BitbucketServerWebhook`,
main.go:269) accepts it with an empty `refChanges` list and reports
"not master", and the handler responds 500; moreover the GitLab decoder can
never report a ref anyway, because `GitLabWebhook.ref` is unexported
(main.go:245) and stays `""` after any decode. -/
theorem C3_gitlab_not_selected :
    unmarshalPayload (.json (.obj [("ref", .str "refs/heads/master")]))
        = .ok (.bitbucket ⟨[]⟩) ∧
    RefVal.Ref (.bitbucket ⟨[]⟩) = "not master" ∧
    (handleWebhook (.json (.obj [("ref", .str "refs/heads/master")]))
        ⟨some true, some true⟩ envAllOk ⟨0, 0, 0⟩).outcome = .responded 500 "500" ∧
    decodeGitLab (.obj [("ref", .str "refs/heads/master")]) = some ⟨""⟩ ∧
    GitLabWebhook.Ref ⟨""⟩ = "" := by
  decide

/-- C4: the claim says the handler always writes exactly one HTTP response
and no failure escapes as a panic.  False: for a body on which no decoder
parses (here the JSON array `[0]`), `unmarshalPayload` returns `(nil, nil)`
(shadowed error, main.go:271/275) and `ref.Ref()` panics on the nil
interface (main.go:291) — the handler terminates with no response; a body
of JSON `null` likewise panics, inside `unmarshalPayload` itself at the
type assertion `s.(Ref)` (main.go:272). -/
theorem C4_panic_no_response :
    (handleWebhook (.json (.arr [.num 0])) ⟨some true, some true⟩ envAllOk
        ⟨0, 0, 0⟩).outcome = .panicked ∧
    (handleWebhook (.json (.arr [.num 0])) ⟨some true, some true⟩ envAllOk
        ⟨0, 0, 0⟩).trace = [] ∧
    (handleWebhook (.json .null) ⟨some true, some true⟩ envAllOk
        ⟨0, 0, 0⟩).outcome = .panicked := by
  decide

/-- C5: the claim says a failure of step 7 (forcing refs/heads/master and
HEAD to the fetched commit) yields a distinct SyncFailed("ref-update")
reported as HTTP 500.  The code cannot: both `SetTarget` return values are
DISCARDED (main.go:393-394), so in a run where both ref updates fail the
handler still responds 200 `ok`, with the refs unchanged (only the working
tree was forced to remote commit 5 by the checkout). -/
theorem C5_ref_update_ignored :
    (handleWebhook masterBody ⟨some true, some true⟩ envNoSetRefs ⟨0, 0, 0⟩).outcome
        = .responded 200 "ok" ∧
    (handleWebhook masterBody ⟨some true, some true⟩ envNoSetRefs ⟨0, 0, 0⟩).state
        = ⟨0, 0, 5⟩ := by
  decide

/-- C6: for every payload structurally matching the ref-change-list
(Bitbucket-Server) schema — a JSON object accepted by the Bitbucket decoder
— the normalizer returns that decode (never an error), and it reports
`refs/heads/master` iff some record's refId equals exactly that string,
otherwise exactly "not master"; in particular zero records report
"not master". -/
theorem C6_ref_change_list (fields : List (String × Json))
    (b : BitbucketServerWebhook) (h : decodeBitbucket (.obj fields) = some b) :
    unmarshalPayload (.json (.obj fields)) = .ok (.bitbucket b) ∧
    (RefVal.Ref (.bitbucket b) = "refs/heads/master" ↔
      ∃ rc ∈ b.RefChanges, rc.RefID = "refs/heads/master") ∧
    (RefVal.Ref (.bitbucket b) = "refs/heads/master" ∨
      RefVal.Ref (.bitbucket b) = "not master") ∧
    (b.RefChanges = [] → RefVal.Ref (.bitbucket b) = "not master") := by
  refine ⟨unmarshalPayload_obj_bitbucket fields b h, ?_, ?_, ?_⟩
  · exact refScan_eq_master_iff b.RefChanges
  · exact refScan_master_or_not b.RefChanges
  · intro he
    simp [RefVal.Ref, BitbucketServerWebhook.Ref, he, refScan]

/-- C6, witness: the theorem applied to the empty-record-list payload. -/
theorem C6_witness :
    unmarshalPayload (.json (.obj [("refChanges", .arr [])]))
        = .ok (.bitbucket ⟨[]⟩) ∧
    (RefVal.Ref (.bitbucket ⟨[]⟩) = "refs/heads/master" ↔
      ∃ rc ∈ (⟨[]⟩ : BitbucketServerWebhook).RefChanges,
        rc.RefID = "refs/heads/master") ∧
    (RefVal.Ref (.bitbucket ⟨[]⟩) = "refs/heads/master" ∨
      RefVal.Ref (.bitbucket ⟨[]⟩) = "not master") ∧
    ((⟨[]⟩ : BitbucketServerWebhook).RefChanges = [] →
      RefVal.Ref (.bitbucket ⟨[]⟩) = "not master") :=
  C6_ref_change_list [("refChanges", .arr [])] ⟨[]⟩ (by decide)

/-- C7: for requests whose payload parses and reports master, the path
guards run in order: a missing or non-directory joined path responds 404
with body "404" before the `.git` entry is ever examined (the trace shows
no `statGit` event); a directory whose `.git` entry is missing or not a
directory responds 403 with body "403" (the trace shows `statTarget`
before `statGit`); and when both guards pass, every other outcome is
either the 200 `ok` success or a 500 with body "500". -/
theorem C7_path_guard (b : Body) (fs : FS) (env : SyncEnv) (st : GitState)
    (r : RefVal) (hu : unmarshalPayload b = .ok r)
    (hm : RefVal.Ref r = "refs/heads/master") :
    ((fs.statTargetDir = none ∨ fs.statTargetDir = some false) →
      handleWebhook b fs env st =
        ⟨.responded 404 "404", st,
          [.lock, .statTarget, .respond 404 "404", .unlock]⟩) ∧
    (fs.statTargetDir = some true →
      (fs.statGitDir = none ∨ fs.statGitDir = some false) →
      handleWebhook b fs env st =
        ⟨.responded 403 "403", st,
          [.lock, .statTarget, .statGit, .respond 403 "403", .unlock]⟩) ∧
    (fs.statTargetDir = some true → fs.statGitDir = some true →
      (handleWebhook b fs env st).outcome = .responded 200 "ok" ∨
      (handleWebhook b fs env st).outcome = .responded 500 "500") := by
  have hrw := handleWebhook_ok_master b fs env st r hu hm
  refine ⟨?_, ?_, ?_⟩
  · rintro (h | h) <;> rw [hrw] <;> simp [syncBody, h]
  · rintro h1 (h | h) <;> rw [hrw] <;> simp [syncBody, h1, h]
  · intro h1 h2
    rw [hrw]
    by_cases hb : (runCalls (gitCalls env) st).1 = true
    · left
      simp [syncBody, h1, h2, hb]
    · right
      simp [syncBody, h1, h2, hb]

/-- C7, witness: the theorem applied at a missing target path and at a
missing `.git` entry. -/
theorem C7_witness :
    (handleWebhook masterBody ⟨none, some true⟩ envAllOk ⟨0, 0, 0⟩ =
      ⟨.responded 404 "404", ⟨0, 0, 0⟩,
        [.lock, .statTarget, .respond 404 "404", .unlock]⟩) ∧
    (handleWebhook masterBody ⟨some true, none⟩ envAllOk ⟨0, 0, 0⟩ =
      ⟨.responded 403 "403", ⟨0, 0, 0⟩,
        [.lock, .statTarget, .statGit, .respond 403 "403", .unlock]⟩) :=
  ⟨(C7_path_guard masterBody ⟨none, some true⟩ envAllOk ⟨0, 0, 0⟩
      (.bitbucket ⟨[⟨"refs/heads/master"⟩]⟩) (by decide) (by decide)).1 (Or.inl rfl),
   (C7_path_guard masterBody ⟨some true, none⟩ envAllOk ⟨0, 0, 0⟩
      (.bitbucket ⟨[⟨"refs/heads/master"⟩]⟩) (by decide) (by decide)).2.1 rfl (Or.inl rfl)⟩

/-- C8, counterexample: the claim says the lock is released on every exit
path BEFORE the HTTP response is written.  False: the source releases via
`defer mutex.Unlock()` (main.go:298), which runs at handler return, after
the response write; on a concrete successful sync the first `unlock` in the
trace does not precede the response event. -/
theorem C8_counterexample :
    releasedBeforeResponse
      (handleWebhook masterBody ⟨some true, some true⟩ envAllOk ⟨0, 0, 0⟩).trace
      = false := by
  decide

/-- C8 (amended): every handler trace obeys the lock discipline — the lock
is acquired at most once, immediately before the filesystem/repository
events (none of which ever occurs outside the critical section), and once
acquired it is released exactly once, unconditionally, as the final action
of the handler (the deferred unlock), hence AFTER the response is written;
and under blocking-mutex semantics two concurrently scheduled handler
threads are never both inside the critical section at the same instant. -/
theorem C8_serialized :
    (∀ (b : Body) (fs : FS) (env : SyncEnv) (st : GitState),
      lockDiscipline (handleWebhook b fs env st).trace false = true) ∧
    (∀ (t1 t2 : List Ev) (s : LockSys),
      Reaches ⟨⟨t1, false⟩, ⟨t2, false⟩, false⟩ s →
      ¬(s.th1.inCrit = true ∧ s.th2.inCrit = true)) := by
  refine ⟨lockDiscipline_handler, fun t1 t2 s h => ?_⟩
  exact (reaches_mutexInv _ s h
    ⟨fun _ => ⟨rfl, rfl⟩, fun hc => absurd hc.1 (by simp)⟩).2

/-- C8, witness: the amended theorem applied at a concrete successful run
and at the initial two-thread system. -/
theorem C8_witness :
    lockDiscipline
      (handleWebhook masterBody ⟨some true, some true⟩ envAllOk ⟨0, 0, 0⟩).trace
      false = true ∧
    ¬((⟨⟨[Ev.lock], false⟩, ⟨[Ev.lock], false⟩, false⟩ : LockSys).th1.inCrit = true ∧
      (⟨⟨[Ev.lock], false⟩, ⟨[Ev.lock], false⟩, false⟩ : LockSys).th2.inCrit = true) :=
  ⟨C8_serialized.1 masterBody ⟨some true, some true⟩ envAllOk ⟨0, 0, 0⟩,
   C8_serialized.2 [Ev.lock] [Ev.lock] _ (Reaches.refl _)⟩

/-- C9: for every successfully parsed payload whose reported ref is not
exactly refs/heads/master, the handler responds 500 with body "500" and
does nothing else: the repository state is unchanged and the trace contains
only the response event — no lock acquisition, no stat call, no git
operation. -/
theorem C9_not_master_no_mutation (b : Body) (fs : FS) (env : SyncEnv)
    (st : GitState) (r : RefVal) (hu : unmarshalPayload b = .ok r)
    (hm : RefVal.Ref r ≠ "refs/heads/master") :
    (handleWebhook b fs env st).outcome = .responded 500 "500" ∧
    (handleWebhook b fs env st).state = st ∧
    (handleWebhook b fs env st).trace = [.respond 500 "500"] := by
  rw [handleWebhook_ok_other b fs env st r hu hm]
  exact ⟨rfl, rfl, rfl⟩

/-- C9, witness: the theorem applied to the spec's feature-branch
scenario body. -/
theorem C9_witness :
    (handleWebhook
        (.json (.obj [("refChanges", .arr [.obj [("refId", .str "refs/heads/feature-x")]])]))
        ⟨some true, some true⟩ envAllOk ⟨0, 0, 0⟩).outcome = .responded 500 "500" ∧
    (handleWebhook
        (.json (.obj [("refChanges", .arr [.obj [("refId", .str "refs/heads/feature-x")]])]))
        ⟨some true, some true⟩ envAllOk ⟨0, 0, 0⟩).state = ⟨0, 0, 0⟩ ∧
    (handleWebhook
        (.json (.obj [("refChanges", .arr [.obj [("refId", .str "refs/heads/feature-x")]])]))
        ⟨some true, some true⟩ envAllOk ⟨0, 0, 0⟩).trace = [.respond 500 "500"] :=
  C9_not_master_no_mutation _ _ _ _
    (.bitbucket ⟨[⟨"refs/heads/feature-x"⟩]⟩) (by decide) (by decide)

/-- C10, counterexample: the claim says the first decoder
(`BitbucketServerWebhook`) accepts ANY JSON object, so it is always the one
selected for object bodies.  False: an object whose `refChanges` member has
the wrong shape (here the number 0) fails the Bitbucket decode, and the
GitLab decoder is selected instead. -/
theorem C10_counterexample :
    decodeBitbucket (.obj [("refChanges", .num 0)]) = none ∧
    unmarshalPayload (.json (.obj [("refChanges", .num 0)]))
        = .ok (.gitlab ⟨""⟩) := by
  decide

/-- C10 (amended): every valid JSON object body parses (never a decode
failure): with the Bitbucket decoder's result whenever that decode succeeds
— which it does unless a `refChanges` member is ill-shaped — and otherwise
with the GitLab decoder, whose reported ref is always the empty string
because the `ref` field is unexported; consequently the only payloads whose
reported ref passes the master filter are Bitbucket-decoded ones with some
record's refId exactly refs/heads/master. -/
theorem C10_object_dispatch (fields : List (String × Json)) :
    (∃ r, unmarshalPayload (.json (.obj fields)) = .ok r) ∧
    (∀ b, decodeBitbucket (.obj fields) = some b →
      unmarshalPayload (.json (.obj fields)) = .ok (.bitbucket b)) ∧
    (decodeBitbucket (.obj fields) = none →
      unmarshalPayload (.json (.obj fields)) = .ok (.gitlab ⟨""⟩)) ∧
    (∀ g, decodeGitLab (.obj fields) = some g → GitLabWebhook.Ref g = "") ∧
    (∀ r, unmarshalPayload (.json (.obj fields)) = .ok r →
      RefVal.Ref r = "refs/heads/master" →
      ∃ b, r = .bitbucket b ∧
        ∃ rc ∈ b.RefChanges, rc.RefID = "refs/heads/master") := by
  refine ⟨?_, fun b h => unmarshalPayload_obj_bitbucket fields b h,
    fun h => unmarshalPayload_obj_gitlab fields h, ?_, ?_⟩
  · cases hd : decodeBitbucket (.obj fields) with
    | some b => exact ⟨.bitbucket b, unmarshalPayload_obj_bitbucket fields b hd⟩
    | none => exact ⟨.gitlab ⟨""⟩, unmarshalPayload_obj_gitlab fields hd⟩
  · intro g hg
    simp [decodeGitLab] at hg
    subst hg
    rfl
  · intro r hr hmaster
    cases hd : decodeBitbucket (.obj fields) with
    | some b =>
      rw [unmarshalPayload_obj_bitbucket fields b hd] at hr
      simp only [UnmarshalOut.ok.injEq] at hr
      subst hr
      exact ⟨b, rfl, (refScan_eq_master_iff b.RefChanges).1 hmaster⟩
    | none =>
      rw [unmarshalPayload_obj_gitlab fields hd] at hr
      simp only [UnmarshalOut.ok.injEq] at hr
      subst hr
      simp [RefVal.Ref, GitLabWebhook.Ref] at hmaster

/-- C10, witness: the amended theorem applied to the empty object, where
the Bitbucket decoder succeeds with an empty record list. -/
theorem C10_witness :
    unmarshalPayload (.json (.obj [])) = .ok (.bitbucket ⟨[]⟩) :=
  (C10_object_dispatch []).2.1 ⟨[]⟩ (by decide)
